import Mathlib

/-!
Verification of the `Point` 2D vector type from `src/physics.rs`.

The Rust code works on `f32`; we embed it shallowly over the real numbers:
each `f32` value is modelled as a real number, `f32::atan2` as the argument
of a complex number (which has exactly the `atan2` convention: range
`(-π, π]`, with `atan2 0 0 = 0`), and `f32::to_degrees` as multiplication
by `180 / π`.  The two `while` loops of `user_angle` become well-founded
recursive functions `normSub` and `normAdd`.
-/

/-- Models `f32::atan2`: `atan2 y x` is the angle of the vector `(x, y)`,
realised as the argument of the complex number `x + y·i`.  Range `(-π, π]`,
and `atan2 0 0 = 0`. -/
noncomputable def atan2 (y x : ℝ) : ℝ := Complex.arg ⟨x, y⟩

/-- Models `f32::to_degrees`: multiplication by `180 / π`. -/
noncomputable def toDegrees (r : ℝ) : ℝ := r * (180 / Real.pi)

open Classical in
/-- The first `while` loop of `Point::user_angle`:
`while angle >= 360.0 { angle = angle - 360.0 }`. -/
noncomputable def normSub (a : ℝ) : ℝ :=
  if 360 ≤ a then normSub (a - 360) else a
termination_by (⌈a / 360⌉).toNat
decreasing_by
  rename_i h
  have h1 : (a - 360) / 360 = a / 360 - 1 := by ring
  have h2 : (1 : ℝ) ≤ a / 360 := (one_le_div (by norm_num)).mpr h
  have h3 : (1 : ℤ) ≤ ⌈a / 360⌉ := by
    calc (1 : ℤ) = ⌈(1 : ℝ)⌉ := by simp
    _ ≤ ⌈a / 360⌉ := Int.ceil_le_ceil h2
  have h4 : ⌈(a - 360) / 360⌉ = ⌈a / 360⌉ - 1 := by
    rw [h1, Int.ceil_sub_one]
  omega

open Classical in
/-- The second `while` loop of `Point::user_angle`:
`while angle < 0.0 { angle = angle + 360.0 }`. -/
noncomputable def normAdd (a : ℝ) : ℝ :=
  if a < 0 then normAdd (a + 360) else a
termination_by (⌈-a / 360⌉).toNat
decreasing_by
  rename_i h
  have h1 : -(a + 360) / 360 = -a / 360 - 1 := by ring
  have h2 : (0 : ℝ) < -a / 360 := div_pos (by linarith) (by norm_num)
  have h3 : (1 : ℤ) ≤ ⌈-a / 360⌉ := Int.one_le_ceil_iff.mpr h2
  have h4 : ⌈-(a + 360) / 360⌉ = ⌈-a / 360⌉ - 1 := by
    rw [h1, Int.ceil_sub_one]
  omega

/-- The `Point` struct of `src/physics.rs`: a 2D vector with fields `x`, `y`. -/
@[ext]
structure Point where
  x : ℝ
  y : ℝ

namespace Point

/-- `Point::squared`: `x² + y²`. -/
def squared (p : Point) : ℝ := p.x ^ 2 + p.y ^ 2

/-- `Point::abs`: the length of the vector, `sqrt (squared)`. -/
noncomputable def abs (p : Point) : ℝ := Real.sqrt p.squared

/-- `Point::unit`: the vector divided componentwise by its length. -/
noncomputable def unit (p : Point) : Point :=
  let length := p.abs
  ⟨p.x / length, p.y / length⟩

/-- `Point::add`: componentwise sum. -/
def add (p other : Point) : Point := ⟨p.x + other.x, p.y + other.y⟩

/-- `Point::sub`: componentwise difference `self - other`. -/
def sub (p other : Point) : Point := ⟨p.x - other.x, p.y - other.y⟩

/-- `Point::distance_to`: `(self - other).abs()`. -/
noncomputable def distance_to (p other : Point) : ℝ := (p.sub other).abs

/-- `Point::angle_to`: the "game angle" in radians from `self` to `other`,
`diff.y.atan2(diff.x)` with `diff = other.sub(self)`. -/
noncomputable def angle_to (p other : Point) : ℝ :=
  let diff := other.sub p
  atan2 diff.y diff.x

/-- `Point::movement_to`: the unit vector in the direction of `other`. -/
noncomputable def movement_to (p other : Point) : Point :=
  let angle := p.angle_to other
  ⟨Real.cos angle, Real.sin angle⟩

/-- `Point::rotated`: rotation by `radians` with the 2D rotation matrix. -/
noncomputable def rotated (p : Point) (radians : ℝ) : Point :=
  let c := Real.cos radians
  let s := Real.sin radians
  ⟨p.x * c - p.y * s, p.x * s + p.y * c⟩

/-- `Point::angle`: `y.atan2(x)`, the vector's own game angle. -/
noncomputable def angle (p : Point) : ℝ := atan2 p.y p.x

open Classical in
/-- `Point::user_angle`: the compass-style angle in degrees.  Zero vector
returns `0.0`; otherwise `90 - angle().to_degrees()` pushed into `[0, 360)`
by the two `while` loops. -/
noncomputable def user_angle (p : Point) : ℝ :=
  if p.x = 0 ∧ p.y = 0 then 0
  else normAdd (normSub (90 - toDegrees p.angle))

end Point

/-! ### Evaluation lemmas for the embedded operations -/

lemma normSub_of_lt {a : ℝ} (h : a < 360) : normSub a = a := by
  unfold normSub
  rw [if_neg (by linarith)]

lemma normAdd_of_nonneg {a : ℝ} (h : 0 ≤ a) : normAdd a = a := by
  unfold normAdd
  rw [if_neg (by linarith)]

lemma normAdd_step {a : ℝ} (h : a < 0) : normAdd a = normAdd (a + 360) := by
  conv_lhs => unfold normAdd
  rw [if_pos h]

lemma toDegrees_zero : toDegrees 0 = 0 := by
  unfold toDegrees
  ring

lemma toDegrees_pi : toDegrees Real.pi = 180 := by
  unfold toDegrees
  have h := Real.pi_ne_zero
  field_simp

lemma toDegrees_pi_div_two : toDegrees (Real.pi / 2) = 90 := by
  unfold toDegrees
  have h := Real.pi_ne_zero
  field_simp
  ring

lemma toDegrees_neg_pi_div_two : toDegrees (-(Real.pi / 2)) = -90 := by
  unfold toDegrees
  have h := Real.pi_ne_zero
  field_simp
  ring

lemma atan2_zero_zero : atan2 0 0 = 0 := by
  unfold atan2
  have h : (⟨0, 0⟩ : ℂ) = 0 := Complex.ext (by simp) (by simp)
  rw [h, Complex.arg_zero]

lemma atan2_zero_one : atan2 0 1 = 0 := by
  unfold atan2
  have h : (⟨1, 0⟩ : ℂ) = 1 := Complex.ext (by simp) (by simp)
  rw [h, Complex.arg_one]

lemma atan2_zero_neg_one : atan2 0 (-1) = Real.pi := by
  unfold atan2
  have h : (⟨-1, 0⟩ : ℂ) = -1 := Complex.ext (by simp) (by simp)
  rw [h, Complex.arg_neg_one]

lemma atan2_one_zero : atan2 1 0 = Real.pi / 2 := by
  unfold atan2
  have h : (⟨0, 1⟩ : ℂ) = Complex.I := Complex.ext (by simp) (by simp)
  rw [h, Complex.arg_I]

lemma atan2_neg_one_zero : atan2 (-1) 0 = -(Real.pi / 2) := by
  unfold atan2
  have h : (⟨0, -1⟩ : ℂ) = -Complex.I := Complex.ext (by simp) (by simp)
  rw [h, Complex.arg_neg_I]

lemma atan2_neg_two_zero : atan2 (-2) 0 = -(Real.pi / 2) := by
  unfold atan2
  have h : (⟨0, -2⟩ : ℂ) = (2 : ℝ) * (-Complex.I) := Complex.ext (by simp) (by simp)
  rw [h, Complex.arg_real_mul _ (by norm_num), Complex.arg_neg_I]

lemma atan2_le_pi (y x : ℝ) : atan2 y x ≤ Real.pi := Complex.arg_le_pi _

lemma neg_pi_lt_atan2 (y x : ℝ) : -Real.pi < atan2 y x := Complex.neg_pi_lt_arg _

lemma Point.angle_mk (x y : ℝ) : Point.angle ⟨x, y⟩ = atan2 y x := rfl

lemma Point.user_angle_of_ne {p : Point} (h : ¬ (p.x = 0 ∧ p.y = 0)) :
    p.user_angle = normAdd (normSub (90 - toDegrees p.angle)) := by
  unfold Point.user_angle
  rw [if_neg h]

lemma Point.user_angle_bounds (p : Point) :
    0 ≤ p.user_angle ∧ p.user_angle < 360 := by
  unfold Point.user_angle
  split
  · norm_num
  · have hpi0 := Real.pi_ne_zero
    have h1 : p.angle ≤ Real.pi := atan2_le_pi _ _
    have h2 : -Real.pi < p.angle := neg_pi_lt_atan2 _ _
    have hpi : (0 : ℝ) < 180 / Real.pi := by positivity
    have hd1 : toDegrees p.angle ≤ 180 := by
      unfold toDegrees
      calc p.angle * (180 / Real.pi) ≤ Real.pi * (180 / Real.pi) :=
            mul_le_mul_of_nonneg_right h1 (le_of_lt hpi)
        _ = 180 := by field_simp
    have hd2 : -180 < toDegrees p.angle := by
      unfold toDegrees
      calc (-180 : ℝ) = -Real.pi * (180 / Real.pi) := by field_simp; ring
        _ < p.angle * (180 / Real.pi) := mul_lt_mul_of_pos_right h2 hpi
    have hs1 : 90 - toDegrees p.angle < 360 := by linarith
    rw [normSub_of_lt hs1]
    rcases le_or_lt 0 (90 - toDegrees p.angle) with h0 | h0
    · rw [normAdd_of_nonneg h0]
      constructor <;> linarith
    · rw [normAdd_step h0, normAdd_of_nonneg (by linarith)]
      constructor <;> linarith

lemma Point.user_angle_origin : Point.user_angle ⟨0, 0⟩ = 0 := by
  unfold Point.user_angle
  rw [if_pos ⟨rfl, rfl⟩]

lemma Point.user_angle_east : Point.user_angle ⟨1, 0⟩ = 90 := by
  rw [Point.user_angle_of_ne (by simp), Point.angle_mk, atan2_zero_one,
    toDegrees_zero, show (90 : ℝ) - 0 = 90 by norm_num,
    normSub_of_lt (by norm_num), normAdd_of_nonneg (by norm_num)]

lemma Point.user_angle_west : Point.user_angle ⟨-1, 0⟩ = 270 := by
  rw [Point.user_angle_of_ne (by simp), Point.angle_mk, atan2_zero_neg_one,
    toDegrees_pi, show (90 : ℝ) - 180 = -90 by norm_num,
    normSub_of_lt (by norm_num), normAdd_step (by norm_num),
    show (-90 : ℝ) + 360 = 270 by norm_num, normAdd_of_nonneg (by norm_num)]

lemma Point.user_angle_north : Point.user_angle ⟨0, 1⟩ = 0 := by
  rw [Point.user_angle_of_ne (by simp), Point.angle_mk, atan2_one_zero,
    toDegrees_pi_div_two, show (90 : ℝ) - 90 = 0 by norm_num,
    normSub_of_lt (by norm_num), normAdd_of_nonneg (by norm_num)]

lemma Point.user_angle_south : Point.user_angle ⟨0, -1⟩ = 180 := by
  rw [Point.user_angle_of_ne (by simp), Point.angle_mk, atan2_neg_one_zero,
    toDegrees_neg_pi_div_two, show (90 : ℝ) - -90 = 180 by norm_num,
    normSub_of_lt (by norm_num), normAdd_of_nonneg (by norm_num)]

/-! ### The claims -/

/-- Claim C1: `user_angle` of the zero vector is `0.0` directly; for every
other vector it is `90 - angle().to_degrees()` normalized into `[0, 360)` by
the two 360-stepping loops; in particular `user_angle` of `(1,0)` is `90`,
of `(-1,0)` is `270`, of `(0,1)` is `0`, and of `(0,-1)` is `180`. -/
theorem C1_user_angle :
    (∀ p : Point, ¬ (p.x = 0 ∧ p.y = 0) →
      p.user_angle = normAdd (normSub (90 - toDegrees p.angle)) ∧
      0 ≤ p.user_angle ∧ p.user_angle < 360) ∧
    Point.user_angle ⟨0, 0⟩ = 0 ∧
    Point.user_angle ⟨1, 0⟩ = 90 ∧
    Point.user_angle ⟨-1, 0⟩ = 270 ∧
    Point.user_angle ⟨0, 1⟩ = 0 ∧
    Point.user_angle ⟨0, -1⟩ = 180 :=
  ⟨fun p h => ⟨Point.user_angle_of_ne h, Point.user_angle_bounds p⟩,
    Point.user_angle_origin, Point.user_angle_east, Point.user_angle_west,
    Point.user_angle_north, Point.user_angle_south⟩

/-- Witness for C1: the vector `(1, 0)` is not the zero vector and the
general `user_angle` formula holds for it. -/
theorem C1_user_angle_witness :
    ¬ ((Point.mk 1 0).x = 0 ∧ (Point.mk 1 0).y = 0) ∧
    (Point.user_angle ⟨1, 0⟩ =
        normAdd (normSub (90 - toDegrees (Point.angle ⟨1, 0⟩))) ∧
      0 ≤ Point.user_angle ⟨1, 0⟩ ∧ Point.user_angle ⟨1, 0⟩ < 360) :=
  ⟨by simp, C1_user_angle.1 ⟨1, 0⟩ (by simp)⟩

lemma Point.angle_to_self (a : Point) : a.angle_to a = 0 := by
  simp only [Point.angle_to, Point.sub, sub_self]
  exact atan2_zero_zero

/-- Claim C2: `angle_to` is `atan2 dy dx` with `(dx, dy) = b - a`, its value
lies in `(-π, π]`, it is `0` for coincident points, and
`(-1,1).angle_to (-1,-1) = -π/2`. -/
theorem C2_angle_to :
    (∀ a b : Point, a.angle_to b = atan2 (b.sub a).y (b.sub a).x) ∧
    (∀ a b : Point, -Real.pi < a.angle_to b ∧ a.angle_to b ≤ Real.pi) ∧
    (∀ a : Point, a.angle_to a = 0) ∧
    Point.angle_to ⟨-1, 1⟩ ⟨-1, -1⟩ = -(Real.pi / 2) := by
  refine ⟨fun a b => rfl,
    fun a b => ⟨neg_pi_lt_atan2 _ _, atan2_le_pi _ _⟩,
    Point.angle_to_self, ?_⟩
  have h : Point.angle_to ⟨-1, 1⟩ ⟨-1, -1⟩ = atan2 (-2) 0 := by
    simp only [Point.angle_to, Point.sub]
    norm_num
  rw [h, atan2_neg_two_zero]

/-- Claim C3: for every non-zero vector `v`, `v.unit().abs()` is within
`1e-6` of `1`. -/
theorem C3_unit_abs (v : Point) (h : ¬ (v.x = 0 ∧ v.y = 0)) :
    |v.unit.abs - 1| < 1e-6 := by
  have hsq : 0 < v.squared := by
    have hx2 := sq_nonneg v.x
    have hy2 := sq_nonneg v.y
    rcases not_and_or.mp h with hx | hy
    · have : 0 < v.x ^ 2 := sq_pos_of_ne_zero hx
      unfold Point.squared
      linarith
    · have : 0 < v.y ^ 2 := sq_pos_of_ne_zero hy
      unfold Point.squared
      linarith
  have habs : 0 < v.abs := Real.sqrt_pos.mpr hsq
  have habs2 : v.abs ^ 2 = v.squared := Real.sq_sqrt (le_of_lt hsq)
  have hne : v.abs ≠ 0 := ne_of_gt habs
  have hu : v.unit.abs = 1 := by
    show Real.sqrt (Point.squared ⟨v.x / v.abs, v.y / v.abs⟩) = 1
    have h1 : Point.squared ⟨v.x / v.abs, v.y / v.abs⟩ = 1 := by
      unfold Point.squared at *
      field_simp
      linarith [habs2]
    rw [h1, Real.sqrt_one]
  rw [hu]
  norm_num

/-- Witness for C3: the vector `(3, 4)` is non-zero and its normalization
has length within `1e-6` of `1`. -/
theorem C3_unit_abs_witness :
    ¬ ((Point.mk 3 4).x = 0 ∧ (Point.mk 3 4).y = 0) ∧
    |(Point.unit ⟨3, 4⟩).abs - 1| < 1e-6 :=
  ⟨by simp, C3_unit_abs ⟨3, 4⟩ (by simp)⟩

/-- Claim C5: `movement_to` is `(cos (angle_to), sin (angle_to))`; it always
has magnitude `1`, and for coincident points `angle_to` is `0` and the
result is exactly `(1, 0)`. -/
theorem C5_movement_to :
    (∀ a b : Point, a.movement_to b =
        ⟨Real.cos (a.angle_to b), Real.sin (a.angle_to b)⟩) ∧
    (∀ a b : Point, (a.movement_to b).abs = 1) ∧
    (∀ a : Point, a.angle_to a = 0 ∧ a.movement_to a = ⟨1, 0⟩) := by
  refine ⟨fun a b => rfl, fun a b => ?_, fun a => ⟨Point.angle_to_self a, ?_⟩⟩
  · show Real.sqrt
        (Point.squared ⟨Real.cos (a.angle_to b), Real.sin (a.angle_to b)⟩) = 1
    have h1 : Point.squared ⟨Real.cos (a.angle_to b), Real.sin (a.angle_to b)⟩
        = 1 := by
      unfold Point.squared
      exact Real.cos_sq_add_sin_sq _
    rw [h1, Real.sqrt_one]
  · show (⟨Real.cos (a.angle_to a), Real.sin (a.angle_to a)⟩ : Point) = ⟨1, 0⟩
    rw [Point.angle_to_self a, Real.cos_zero, Real.sin_zero]

/-- Claim C6: `rotated` applies the standard counter-clockwise rotation
matrix, and rotation by `π` negates both components within `1e-6`. -/
theorem C6_rotated :
    (∀ (v : Point) (t : ℝ), v.rotated t =
        ⟨v.x * Real.cos t - v.y * Real.sin t,
          v.x * Real.sin t + v.y * Real.cos t⟩) ∧
    (∀ v : Point, |(v.rotated Real.pi).x - -v.x| < 1e-6 ∧
      |(v.rotated Real.pi).y - -v.y| < 1e-6) := by
  have hx : ∀ v : Point, (v.rotated Real.pi).x = -v.x := fun v => by
    show v.x * Real.cos Real.pi - v.y * Real.sin Real.pi = -v.x
    rw [Real.cos_pi, Real.sin_pi]
    ring
  have hy : ∀ v : Point, (v.rotated Real.pi).y = -v.y := fun v => by
    show v.x * Real.sin Real.pi + v.y * Real.cos Real.pi = -v.y
    rw [Real.cos_pi, Real.sin_pi]
    ring
  refine ⟨fun v t => rfl, fun v => ?_⟩
  rw [hx v, hy v]
  norm_num

/-- Claim C7: `squared` is `x² + y²`, `abs` is `sqrt (squared)` and is
nonnegative; `(4,3).squared() = 25` and `(4,3).abs() = 5`. -/
theorem C7_squared_abs :
    (∀ v : Point, v.squared = v.x ^ 2 + v.y ^ 2) ∧
    (∀ v : Point, v.abs = Real.sqrt v.squared ∧ 0 ≤ v.abs) ∧
    Point.squared ⟨4, 3⟩ = 25 ∧ Point.abs ⟨4, 3⟩ = 5 := by
  have h25 : Point.squared ⟨4, 3⟩ = 25 := by
    unfold Point.squared
    norm_num
  refine ⟨fun v => rfl, fun v => ⟨rfl, Real.sqrt_nonneg _⟩, h25, ?_⟩
  show Real.sqrt (Point.squared ⟨4, 3⟩) = 5
  rw [h25, show (25 : ℝ) = 5 ^ 2 by norm_num, Real.sqrt_sq (by norm_num)]

/-- Claim C8: for every pair of vectors `a`, `b`, `a.sub(b).add(b) = a`
(here exactly, in the real-number model). -/
theorem C8_sub_add (a b : Point) : (a.sub b).add b = a := by
  ext <;> simp [Point.sub, Point.add]

/-- Claim C9: `distance_to` equals `sub` followed by `abs`, and it is
symmetric in its two arguments. -/
theorem C9_distance_to :
    (∀ a b : Point, a.distance_to b = (a.sub b).abs) ∧
    (∀ a b : Point, a.distance_to b = b.distance_to a) := by
  refine ⟨fun a b => rfl, fun a b => ?_⟩
  show (a.sub b).abs = (b.sub a).abs
  simp only [Point.abs, Point.squared, Point.sub]
  congr 1
  ring

/-- Claim C10: rotating by `0` is the exact identity, since `cos 0 = 1`
and `sin 0 = 0` collapse the rotation formula to the original components. -/
theorem C10_rotated_zero (v : Point) : v.rotated 0 = v := by
  show (⟨v.x * Real.cos 0 - v.y * Real.sin 0,
      v.x * Real.sin 0 + v.y * Real.cos 0⟩ : Point) = v
  rw [Real.cos_zero, Real.sin_zero]
  ext <;> simp
